import Mathlib

/-!
# Optimile financial management — verification of the ledger reducer and customer ledger

Shallow embedding of the Redux-like state-transition engine of the
Optimile financial-management application (`src/App.tsx`) and of the
customer-ledger derivation (`src/components/CustomerLedger.tsx`).

Modelling conventions:
* monetary amounts are rationals (`ℚ`); the source uses JS numbers with
  `Math.round` applied at the TDS split;
* dates and timestamps are integers (`ℤ`): ISO strings are only ever
  parsed and compared in the source, never inspected structurally;
* `Date.now()` / `new Date()` inside a reducer invocation is modelled by an
  explicit `now : ℤ` parameter threaded through the transition function;
* optional strings whose absence the source detects by JS falsiness
  (`if (x)`, `x || d`) are `Option String`, with the helpers `jsStrFalsy`
  and `jsOr` reproducing the falsiness of both `undefined` and `""`;
* only the reducer cases and derived views exercised by the verified
  properties are embedded; the remaining `switch` cases are independent
  branches of the same function and never interact with these.
-/

/-- Direction of a ledger movement (`TransactionType` in `types.ts`). -/
inductive TxType where
  | credit
  | debit
deriving DecidableEq, Repr

/-- Stored invoice status (`InvoiceStatus` in `types.ts`).
`partiallyPaid` embeds the TS literal `'partial'`. -/
inductive InvoiceStatus where
  | draft
  | sent
  | paid
  | overdue
  | partiallyPaid
deriving DecidableEq, Repr

/-- String rendering of an `InvoiceStatus`, used when a status is written
into an audit log's old/new value slots. -/
def statusStr : InvoiceStatus → String
  | .draft => "draft"
  | .sent => "sent"
  | .paid => "paid"
  | .overdue => "overdue"
  | .partiallyPaid => "partial"

/-- `Invoice` record (`types.ts`); fields not read by the embedded logic
(line items, tax breakdown, reminder metadata) are omitted. -/
structure Invoice where
  id : String
  customerId : String
  customerName : String
  invoiceNumber : String
  status : InvoiceStatus
  date : ℤ
  dueDate : ℤ
  amount : ℚ
  paidAmount : Option ℚ
  adjustments : Option ℚ
deriving DecidableEq, Repr

/-- `Booking` record (`types.ts`), restricted to the fields the embedded
reducer cases read. -/
structure Booking where
  id : String
  customerId : String
  vehicleId : String
  expense : ℚ
  status : String
  vendorId : Option String
  vendorName : Option String
deriving DecidableEq, Repr

/-- `Expense` record (`types.ts`). -/
structure Expense where
  id : String
  vehicleId : String
  category : String
  amount : ℚ
  date : ℤ
  vendor : String
  vendorId : Option String
  bookingId : Option String
  entryType : Option String
  status : String
deriving DecidableEq, Repr

/-- `Transaction` record (`types.ts`). -/
structure Transaction where
  id : String
  customerId : Option String
  vendorId : Option String
  vendorName : Option String
  date : ℤ
  amount : ℚ
  type : TxType
  description : String
  referenceId : Option String
  matched : Bool
  referenceNo : Option String
  category : Option String
deriving DecidableEq, Repr

/-- `Vendor` record (`types.ts`), restricted to the fields the embedded
reducer cases read or write. -/
structure Vendor where
  id : String
  name : String
  balance : ℚ
  lastActivity : Option ℤ
deriving DecidableEq, Repr

/-- `SystemUser` record (`types.ts`); `role` is one of the `UserRole`
string literals. -/
structure SystemUser where
  id : String
  name : String
  email : String
  role : String
  status : String
deriving DecidableEq, Repr

/-- `Notification` record (`types.ts`); `type` is one of
`success | error | info | warning`. -/
structure Notification where
  id : String
  type : String
  message : String
deriving DecidableEq, Repr

/-- `AuditLog` record (`types.ts`). -/
structure AuditLog where
  id : String
  timestamp : ℤ
  userId : String
  userName : String
  userRole : String
  action : String
  entityType : String
  entityId : String
  details : String
  oldValue : Option String
  newValue : Option String
deriving DecidableEq, Repr

/-- The aggregate `AppState` (`types.ts`), restricted to the collections
the embedded reducer cases and derived views touch. -/
structure AppState where
  currentUser : SystemUser
  invoices : List Invoice
  bookings : List Booking
  expenses : List Expense
  transactions : List Transaction
  vendors : List Vendor
  notifications : List Notification
  auditLogs : List AuditLog
deriving DecidableEq, Repr

/-- JS falsiness of an optional string: both `undefined` and `""` are
falsy (`if (x)` on a `string | undefined`). -/
def jsStrFalsy (o : Option String) : Bool :=
  o.getD "" == ""

/-- JS `x || d` on an optional string: yields `d` when `x` is absent or
empty, the string otherwise. -/
def jsOr (o : Option String) (d : String) : String :=
  if jsStrFalsy o then d else o.getD ""

/-- JS `Math.round` on a rational: round half toward positive infinity,
i.e. `⌊q + 1/2⌋`. -/
def jsRound (q : ℚ) : ℤ :=
  ⌊q + 1 / 2⌋

/-- The auto-TDS arithmetic used by both payment paths in `App.tsx`:
the supplied amount is the net 98% receipt, so
`tdsAmount = Math.round((amount / 0.98) * 0.02)`. -/
def tdsOf (amount : ℚ) : ℚ :=
  ((jsRound ((amount / (98 / 100)) * (2 / 100))) : ℚ)

/-- `formatINR` (`App.tsx`): locale-specific currency rendering is
abstracted to a plain decimal rendering; no verified property depends on
the produced text. -/
def formatINR (amount : ℚ) : String :=
  "₹" ++ toString amount

/-- `createLog` helper of `App.tsx`. The source id also embeds
`Math.random()`; the model keeps only the `Date.now()` part — no verified
property reads the id. -/
def createLog (state : AppState) (actionType : String) (entityType : String)
    (entityId : String) (details : String) (oldVal newVal : Option String)
    (now : ℤ) : AuditLog :=
  { id := "log_" ++ toString now
    timestamp := now
    userId := state.currentUser.id
    userName := state.currentUser.name
    userRole := state.currentUser.role
    action := actionType
    entityType := entityType
    entityId := entityId
    details := details
    oldValue := oldVal
    newValue := newVal }

/-- The category list `['TDS', 'Discount', 'Adjustment', 'Credit note']`
classifying a payment category as a non-cash adjustment
(`App.tsx`, `RECORD_PAYMENT`, and reused by the customer ledger). -/
def isNonCashCategory (c : String) : Bool :=
  (["TDS", "Discount", "Adjustment", "Credit note"]).contains c

/-- Payload of the `RECORD_PAYMENT` action. `debitNoteNo = ""` models an
absent debit-note number (the source tests it for truthiness). -/
structure PaymentPayload where
  invoiceId : String
  date : ℤ
  reference : String
  amount : ℚ
  type : TxType
  category : String
  debitNoteNo : String
  autoTds : Bool
deriving DecidableEq, Repr

/-- Payload of the `RECORD_VENDOR_PAYMENT` action. `bookingId = ""` models
an absent booking reference (the source tests it for truthiness). -/
structure VendorPaymentPayload where
  vendorIds : List String
  date : ℤ
  amount : ℚ
  category : String
  reference : String
  autoTds : Bool
  bookingId : String
deriving DecidableEq, Repr

/-- The embedded fragment of the action vocabulary (`Action` in
`types.ts`): exactly the reducer cases the verified claims exercise.
(Named `AppAction` here: `Action` is taken by Mathlib.) -/
inductive AppAction where
  | deleteInvoice (id : String)
  | approveExpense (id : String)
  | recordPayment (p : PaymentPayload)
  | recordVendorPayment (p : VendorPaymentPayload)
  | completeTrip (bookingId : String)
deriving DecidableEq, Repr

/-- `DELETE_INVOICE` case of `appReducer` (`App.tsx` lines 95–110):
role gate, then removal by id plus one audit entry and one success
notification. -/
def deleteInvoice (state : AppState) (invId : String) (now : ℤ) : AppState :=
  if state.currentUser.role = "Accountant" then
    { state with
        notifications := state.notifications ++
          [{ id := "n_" ++ toString now, type := "error",
             message := "Access Denied: Accountants cannot delete records." }] }
  else
    let invToDelete := state.invoices.find? (fun i => i.id == invId)
    let log := createLog state "Delete" "Invoice"
      (jsOr (invToDelete.map (fun i => i.invoiceNumber)) invId)
      "Deleted Invoice Record" none none now
    { state with
        invoices := state.invoices.filter (fun i => i.id != invId)
        auditLogs := log :: state.auditLogs
        notifications := state.notifications ++
          [{ id := "n_" ++ toString now, type := "success",
             message := "Invoice deleted." }] }

/-- `APPROVE_EXPENSE` case of `appReducer` (`App.tsx` lines 138–150). -/
def approveExpense (state : AppState) (expId : String) (now : ℤ) : AppState :=
  match state.expenses.find? (fun e => e.id == expId) with
  | none => state
  | some expense =>
    let log := createLog state "Approve" "Expense" expense.id
      "Approved high-value expense" (some "pending_approval") (some "approved") now
    { state with
        expenses := state.expenses.map
          (fun e => if e.id == expId then { e with status := "approved" } else e)
        auditLogs := log :: state.auditLogs
        notifications := state.notifications ++
          [{ id := "n_" ++ toString now, type := "success",
             message := "Expense Approved." }] }

/-- Status re-derivation block of `RECORD_PAYMENT`
(`App.tsx` lines 245–253): every branch overwrites the initial
`invoice.status`, so the previous status does not appear. -/
def recordPaymentStatus (balance amount : ℚ) (dueDate now : ℤ) : InvoiceStatus :=
  if balance ≤ 5 then .paid
  else if balance < amount then .sent
  else if now > dueDate then .overdue
  else .sent

/-- Main-entry description of `RECORD_PAYMENT` (`App.tsx` lines 191–193). -/
def recordPaymentMainDesc (p : PaymentPayload) (invoiceNumber : String) : String :=
  if p.autoTds && (p.category == "Full payment" || p.category == "Partial payment") then
    "Bank Receipt - " ++ invoiceNumber
  else
    p.category ++ " - " ++ invoiceNumber ++ " " ++
      (if p.debitNoteNo != "" then "(DN: " ++ p.debitNoteNo ++ ")" else "")

/-- `RECORD_PAYMENT` case of `appReducer` (`App.tsx` lines 174–265). -/
def recordPayment (state : AppState) (p : PaymentPayload) (now : ℤ) : AppState :=
  match state.invoices.find? (fun i => i.id == p.invoiceId) with
  | none => state
  | some invoice =>
    let currentPaid := invoice.paidAmount.getD 0
    let currentAdjustments := invoice.adjustments.getD 0
    let isNonCashAdjustment := isNonCashCategory p.category
    let mainDescription := recordPaymentMainDesc p invoice.invoiceNumber
    let newPaid :=
      if isNonCashAdjustment then currentPaid
      else if p.type == .credit then currentPaid + p.amount
      else currentPaid - p.amount
    let newAdjustments :=
      if isNonCashAdjustment then
        (if p.type == .credit then currentAdjustments + p.amount
         else currentAdjustments - p.amount)
      else currentAdjustments
    let mainTx : Transaction :=
      { id := "tx_" ++ toString now
        customerId := some invoice.customerId
        vendorId := none
        vendorName := none
        date := p.date
        amount := p.amount
        type := p.type
        description := mainDescription
        referenceId := some invoice.id
        matched := true
        referenceNo := none
        category := none }
    let doTds := p.autoTds && p.type == .credit && !isNonCashAdjustment
    let finalAdjustments :=
      if doTds then newAdjustments + tdsOf p.amount else newAdjustments
    let tdsTx : Transaction :=
      { id := "tx_tds_" ++ toString now ++ "_2"
        customerId := some invoice.customerId
        vendorId := none
        vendorName := none
        date := p.date
        amount := tdsOf p.amount
        type := .credit
        description := "TDS Deduction (2%) - " ++ invoice.invoiceNumber
        referenceId := some invoice.id
        matched := true
        referenceNo := none
        category := none }
    let newTransactions := if doTds then [mainTx, tdsTx] else [mainTx]
    let totalCredits := newPaid + finalAdjustments
    let balance := invoice.amount - totalCredits
    let newStatus := recordPaymentStatus balance invoice.amount invoice.dueDate now
    let log := createLog state "Record" "Payment" invoice.invoiceNumber
      ("Recorded " ++ (if p.type == TxType.credit then "credit" else "debit") ++
        " of " ++ formatINR p.amount ++ " via " ++ p.category ++ " " ++
        (if p.autoTds then "(+TDS)" else ""))
      (some (statusStr invoice.status)) (some (statusStr newStatus)) now
    { state with
        invoices := state.invoices.map
          (fun i => if i.id == invoice.id then
            { i with paidAmount := some newPaid, adjustments := some finalAdjustments,
                     status := newStatus }
            else i)
        transactions := newTransactions ++ state.transactions
        notifications := state.notifications ++
          [{ id := "notif_" ++ toString now, type := "success",
             message := "Payment recorded successfully." }]
        auditLogs := log :: state.auditLogs }

/-- Replace the first vendor with the given id (the JS `find` followed by
in-place field assignment acts on the first match). -/
def updateFirstVendor (f : Vendor → Vendor) (vid : String) :
    List Vendor → List Vendor
  | [] => []
  | v :: vs => if v.id == vid then f v :: vs else v :: updateFirstVendor f vid vs

/-- One iteration of the `vendorIds.forEach` loop of
`RECORD_VENDOR_PAYMENT` (`App.tsx` lines 272–325): skip unknown ids,
emit the bank entry (and the TDS entry when applicable), and overwrite the
matched vendor's `balance` and `lastActivity`. -/
def rvpStep (p : VendorPaymentPayload) (now : ℤ)
    (acc : List Vendor × List Transaction) (vid : String) :
    List Vendor × List Transaction :=
  match acc.1.find? (fun v => v.id == vid) with
  | none => acc
  | some vendor =>
    let tdsAmount : ℚ := if p.autoTds then tdsOf p.amount else 0
    let mainDesc :=
      if p.autoTds then
        "Bank Payment - " ++ p.reference ++ " " ++
          (if p.bookingId != "" then "(Trip: " ++ p.bookingId ++ ")" else "")
      else
        p.category ++ " - " ++ p.reference ++
          (if p.bookingId != "" then " (Trip: " ++ p.bookingId ++ ")" else "")
    let mainTx : Transaction :=
      { id := "vtx_" ++ toString now ++ "_" ++ vid
        customerId := none
        vendorId := some vid
        vendorName := some vendor.name
        date := p.date
        amount := p.amount
        type := .credit
        description := mainDesc
        referenceId := if p.bookingId == "" then none else some p.bookingId
        matched := true
        referenceNo := some p.reference
        category := some p.category }
    let tdsTx : Transaction :=
      { id := "vtx_tds_" ++ toString now ++ "_" ++ vid
        customerId := none
        vendorId := some vid
        vendorName := some vendor.name
        date := p.date
        amount := tdsAmount
        type := .credit
        description := "TDS (2%) on Payment " ++ p.reference
        referenceId := if p.bookingId == "" then none else some p.bookingId
        matched := true
        referenceNo := none
        category := some "TDS" }
    let txs := if p.autoTds && decide (tdsAmount > 0)
      then acc.2 ++ [mainTx, tdsTx] else acc.2 ++ [mainTx]
    let vendors := updateFirstVendor
      (fun v => { v with balance := max 0 (v.balance - (p.amount + tdsAmount)),
                         lastActivity := some now }) vid acc.1
    (vendors, txs)

/-- The whole `vendorIds.forEach` loop: final vendor array and the
accumulated new transactions, in push order. -/
def rvpApply (p : VendorPaymentPayload) (now : ℤ) (vendors : List Vendor) :
    List Vendor × List Transaction :=
  p.vendorIds.foldl (rvpStep p now) (vendors, [])

/-- `RECORD_VENDOR_PAYMENT` case of `appReducer`
(`App.tsx` lines 267–336). -/
def recordVendorPayment (state : AppState) (p : VendorPaymentPayload)
    (now : ℤ) : AppState :=
  let res := rvpApply p now state.vendors
  let log := createLog state "Record" "Payment"
    (toString p.vendorIds.length ++ " Vendor(s)")
    ("Recorded " ++ p.category ++ " of " ++ formatINR p.amount ++ " " ++
      (if p.autoTds then "(+TDS)" else "")) none none now
  { state with
      vendors := res.1
      transactions := res.2 ++ state.transactions
      notifications := state.notifications ++
        [{ id := "n_" ++ toString now, type := "success",
           message := "Vendor payment recorded." }]
      auditLogs := log :: state.auditLogs }

/-- What the *input* state's `vendors` collection reads as after a
`RECORD_VENDOR_PAYMENT` dispatch. The source copies the array with a
spread (`[...state.vendors]`) but the copy shares the vendor *objects*, and
the loop assigns `vendor.balance` / `vendor.lastActivity` in place — so the
mutations are observable through the input state as well. -/
def recordVendorPaymentInputVendorsAfter (state : AppState)
    (p : VendorPaymentPayload) (now : ℤ) : List Vendor :=
  (rvpApply p now state.vendors).1

/-- `COMPLETE_TRIP` case of `appReducer` (`App.tsx` lines 338–389). -/
def completeTrip (state : AppState) (bookingId : String) (now : ℤ) : AppState :=
  match state.bookings.find? (fun b => b.id == bookingId) with
  | none => state
  | some booking =>
    if jsStrFalsy booking.vendorId then
      { state with
          notifications := state.notifications ++
            [{ id := "n_" ++ toString now, type := "error",
               message := "Trip " ++ bookingId ++ " has no vendor assigned." }] }
    else
      match state.expenses.find?
          (fun e => e.bookingId == some bookingId && e.category == "Freight") with
      | some _ =>
        { state with
            notifications := state.notifications ++
              [{ id := "n_" ++ toString now, type := "warning",
                 message := "Trip " ++ bookingId ++ " already posted to ledger." }] }
      | none =>
        let newExpense : Expense :=
          { id := "exp_auto_" ++ toString now
            vehicleId := booking.vehicleId
            category := "Freight"
            amount := booking.expense
            date := now
            vendor := jsOr booking.vendorName "Unknown"
            vendorId := booking.vendorId
            bookingId := some booking.id
            entryType := some "Auto"
            status := "approved" }
        let updatedVendors := state.vendors.map
          (fun v => if some v.id == booking.vendorId then
            { v with balance := v.balance + booking.expense,
                     lastActivity := some now }
            else v)
        let log := createLog state "Post" "Expense" bookingId
          ("Auto-posted freight charge of " ++ formatINR booking.expense)
          (some "Pending") (some "Posted") now
        { state with
            vendors := updatedVendors
            expenses := state.expenses ++ [newExpense]
            auditLogs := log :: state.auditLogs
            notifications := state.notifications ++
              [{ id := "n_" ++ toString now, type := "success",
                 message := "Trip " ++ bookingId ++ " posted to Vendor Ledger." }] }

/-- The ledger reducer `appReducer` (`App.tsx`), restricted to the embedded
action vocabulary; `now` stands for the wall clock read by
`Date.now()` / `new Date()` during the invocation. -/
def appReducer (state : AppState) (action : AppAction) (now : ℤ) : AppState :=
  match action with
  | .deleteInvoice invId => deleteInvoice state invId now
  | .approveExpense expId => approveExpense state expId now
  | .recordPayment p => recordPayment state p now
  | .recordVendorPayment p => recordVendorPayment state p now
  | .completeTrip bookingId => completeTrip state bookingId now

/-- Does `pat` occur as a contiguous run of `l`? (helper for JS
`String.prototype.includes`). -/
def charsContain (pat : List Char) : List Char → Bool
  | [] => List.isPrefixOf pat []
  | c :: rest => List.isPrefixOf pat (c :: rest) || charsContain pat rest

/-- Substring test (JS `String.prototype.includes`). -/
def strContains (s pat : String) : Bool :=
  charsContain pat.toList s.toList

/-- A row of the customer ledger (`LedgerEntry` in
`CustomerLedger.tsx`). -/
structure LedgerEntry where
  id : String
  date : ℤ
  invoiceId : Option String
  invoiceNumber : String
  customerId : String
  customerName : String
  entryType : String
  category : String
  credit : ℚ
  debit : ℚ
  balance : ℚ
  shortPayment : ℚ
  isLinkedToPrevious : Bool := false
  showShortPayment : Bool := false
deriving DecidableEq, Repr

/-- Invoice row of the customer ledger
(`CustomerLedger.tsx`, `invoiceEntries`). -/
def invoiceEntryOf (inv : Invoice) : LedgerEntry :=
  { id := "led_inv_" ++ inv.id
    date := inv.date
    invoiceId := some inv.id
    invoiceNumber := inv.invoiceNumber
    customerId := inv.customerId
    customerName := inv.customerName
    entryType := "Auto"
    category := "Invoice"
    credit := 0
    debit := inv.amount
    balance := 0
    shortPayment := 0 }

/-- Transaction row of the customer ledger
(`CustomerLedger.tsx`, `transactionEntries`); `invoices` is the full
`state.invoices` used for the `linkedInv` lookup. -/
def txEntryOf (invoices : List Invoice) (t : Transaction) : LedgerEntry :=
  let linkedInv : Option Invoice := match t.referenceId with
    | some r => invoices.find? (fun i => i.id == r)
    | none => none
  let categoryName := (t.description.splitOn " - ").headD ""
  let isAdjustment := isNonCashCategory categoryName
  let isTDS := strContains categoryName "TDS"
  let shortPayment : ℚ :=
    match linkedInv with
    | some inv =>
      if t.type == .credit || isAdjustment then
        let totalCredits := inv.paidAmount.getD 0 + inv.adjustments.getD 0
        let currentBalance := inv.amount - totalCredits
        if currentBalance > 1 then currentBalance else 0
      else 0
    | none => 0
  { id := "led_tx_" ++ t.id
    date := t.date
    invoiceId := linkedInv.map (fun i => i.id)
    invoiceNumber := jsOr (linkedInv.map (fun i => i.invoiceNumber)) "-"
    customerId := t.customerId.getD ""
    customerName := jsOr (linkedInv.map (fun i => i.customerName)) "Unknown"
    entryType := if isAdjustment then "Adjustment" else "Manual"
    category := t.description
    credit := if t.type == .credit then t.amount else 0
    debit := if t.type == .debit then t.amount else 0
    balance := 0
    shortPayment := shortPayment
    isLinkedToPrevious := isTDS }

/-- The unsorted row list `[...invoiceEntries, ...transactionEntries]` of
`ledgerData`, for a given customer selection (`"all"` selects every
customer). -/
def allEntries (st : AppState) (selectedCustomerId : String) : List LedgerEntry :=
  let relevantInvoices :=
    if selectedCustomerId == "all" then st.invoices
    else st.invoices.filter (fun i => i.customerId == selectedCustomerId)
  let relevantTransactions :=
    if selectedCustomerId == "all" then st.transactions
    else st.transactions.filter (fun t => t.customerId == some selectedCustomerId)
  relevantInvoices.map invoiceEntryOf ++
    (relevantTransactions.filter (fun t => !(jsStrFalsy t.customerId))).map
      (txEntryOf st.invoices)

/-- The total preorder induced by the `allEntries.sort` comparator
(`CustomerLedger.tsx` lines 577–585): ascending date; on a date tie an
`Invoice` row precedes a non-`Invoice` row. `ledgerRel a b` holds exactly
when the comparator does not order `a` strictly after `b`. -/
def ledgerRel (a b : LedgerEntry) : Prop :=
  a.date < b.date ∨ (a.date = b.date ∧ (a.category = "Invoice" ∨ b.category ≠ "Invoice"))

instance : DecidableRel ledgerRel := fun a b => by
  unfold ledgerRel; infer_instance

/-- Insert a row into an already-sorted suffix, before the first row it
does not compare strictly after — the insertion step of a stable
insertion sort realizing the JS stable `Array.prototype.sort`. -/
def ledgerInsert (x : LedgerEntry) : List LedgerEntry → List LedgerEntry
  | [] => [x]
  | y :: ys => if ledgerRel x y then x :: y :: ys else y :: ledgerInsert x ys

/-- Stable sort of the ledger rows by the source comparator (JS
`Array.prototype.sort` is stable per ES2019). -/
def sortLedger : List LedgerEntry → List LedgerEntry
  | [] => []
  | x :: xs => ledgerInsert x (sortLedger xs)

/-- The running-balance pass (`CustomerLedger.tsx` lines 588–592):
`runningBalance += debit − credit`, attached to each row in order. -/
def addBalances (r : ℚ) : List LedgerEntry → List LedgerEntry
  | [] => []
  | e :: es =>
    { e with balance := r + e.debit - e.credit } ::
      addBalances (r + e.debit - e.credit) es

/-- The `localSearch` predicate (`CustomerLedger.tsx` lines 594–600);
`q` is the already-lowercased query. -/
def searchMatch (selectedCustomerId q : String) (e : LedgerEntry) : Bool :=
  strContains e.invoiceNumber.toLower q ||
  strContains e.category.toLower q ||
  (selectedCustomerId == "all" && strContains e.customerName.toLower q)

/-- The conditional search filter: applied only when `localSearch` is a
non-empty (truthy) string. -/
def applySearch (selectedCustomerId localSearch : String)
    (l : List LedgerEntry) : List LedgerEntry :=
  if localSearch == "" then l
  else l.filter (searchMatch selectedCustomerId localSearch.toLower)

/-- The short-payment visibility post-process
(`CustomerLedger.tsx` lines 606–622): walk the reversed list with a
`seenInvoices` set. The source guards each row with `if (entry.invoiceId)`
— a JS truthiness test, so a row whose `invoiceId` is absent *or the
empty string* is skipped outright: it is never flagged and never marks
its group as seen. The first surviving row of each invoice group gets
`showShortPayment := category ≠ "Invoice"`, every other row `false`; the
group is marked seen at its first surviving row whether or not that row
is the invoice row. -/
def flagShort (seen : List String) : List LedgerEntry → List LedgerEntry
  | [] => []
  | e :: es =>
    if jsStrFalsy e.invoiceId then
      { e with showShortPayment := false } :: flagShort seen es
    else if seen.contains (e.invoiceId.getD "") then
      { e with showShortPayment := false } :: flagShort seen es
    else
      { e with showShortPayment := e.category != "Invoice" } ::
        flagShort (e.invoiceId.getD "" :: seen) es

/-- `ledgerData` (`CustomerLedger.tsx` lines 508–625): build rows, stable
sort, attach running balances, apply the optional search filter, reverse
to newest-first, then run the short-payment visibility pass. -/
def ledgerData (st : AppState) (selectedCustomerId localSearch : String) :
    List LedgerEntry :=
  flagShort []
    ((applySearch selectedCustomerId localSearch
        (addBalances 0 (sortLedger (allEntries st selectedCustomerId)))).reverse)

/-- Status derivation as the specification words it (§4.3 step 8):
`paid` when `b ≤ 5`; else `sent` when `0 < b < amount`; else
(`b ≥ amount`) `overdue` when the due date is past, otherwise `sent`.
Stated separately from `recordPaymentStatus` so the two chains can be
compared. -/
def claimStatus (b amount : ℚ) (dueDate now : ℤ) : InvoiceStatus :=
  if b ≤ 5 then .paid
  else if 0 < b ∧ b < amount then .sent
  else if now > dueDate then .overdue
  else .sent

/-- Erase the display flag of a ledger row; used to compare row lists up
to the short-payment visibility pass. -/
def stripFlag (e : LedgerEntry) : LedgerEntry :=
  { e with showShortPayment := false }

/-- The sort key of the ledger comparator: two rows compare equal exactly
when their dates agree and they are both `Invoice` rows or both not. -/
def entryKey (e : LedgerEntry) : ℤ × Bool :=
  (e.date, e.category == "Invoice")

/-- Vendor-balance non-negativity, the invariant of spec §8. -/
abbrev vendorsNonneg (st : AppState) : Prop :=
  ∀ v ∈ st.vendors, 0 ≤ v.balance

/-- Booking trip costs are non-negative. -/
abbrev bookingExpensesNonneg (st : AppState) : Prop :=
  ∀ b ∈ st.bookings, 0 ≤ b.expense

/-- Is the action a `RECORD_VENDOR_PAYMENT` or a `COMPLETE_TRIP`? -/
def isVendorFlowAction : AppAction → Bool
  | .recordVendorPayment _ => true
  | .completeTrip _ => true
  | _ => false

/-- Run a sequence of actions through the reducer, each with its own wall
clock. -/
def runActions (st : AppState) (acts : List (AppAction × ℤ)) : AppState :=
  acts.foldl (fun s a => appReducer s a.1 a.2) st

/-- The cumulative cash `paidAmount` after the primary movement of
`RECORD_PAYMENT` (§4.3 step 4): cash credit increases it, cash debit
decreases it, non-cash categories leave it alone. -/
def rpNewPaid (p : PaymentPayload) (inv : Invoice) : ℚ :=
  if isNonCashCategory p.category then inv.paidAmount.getD 0
  else if p.type == TxType.credit then inv.paidAmount.getD 0 + p.amount
  else inv.paidAmount.getD 0 - p.amount

/-- The cumulative non-cash `adjustments` after the primary movement and
the optional auto-TDS split of `RECORD_PAYMENT` (§4.3 steps 4 and 6). -/
def rpNewAdjustments (p : PaymentPayload) (inv : Invoice) : ℚ :=
  let base :=
    if isNonCashCategory p.category then
      (if p.type == TxType.credit then inv.adjustments.getD 0 + p.amount
       else inv.adjustments.getD 0 - p.amount)
    else inv.adjustments.getD 0
  if p.autoTds && p.type == TxType.credit && !(isNonCashCategory p.category) then
    base + tdsOf p.amount
  else base

/-! ### Concrete fixtures used by witnesses and counterexamples -/

/-- An administrator, as seeded by `SWITCH_USER`. -/
def userAdmin : SystemUser :=
  { id := "u1", name := "John Smith", email := "john@opt.com", role := "Admin",
    status := "Active" }

/-- An accountant, as seeded by `SWITCH_USER`. -/
def userAccountant : SystemUser :=
  { id := "u4", name := "Gary Green", email := "gary@opt.com",
    role := "Accountant", status := "Active" }

/-- An empty state owned by an administrator. -/
def baseState : AppState :=
  { currentUser := userAdmin, invoices := [], bookings := [], expenses := [],
    transactions := [], vendors := [], notifications := [], auditLogs := [] }

/-- A fresh ₹10,000 invoice (spec §8 scenario 3). -/
def wInvoice : Invoice :=
  { id := "I1", customerId := "c1", customerName := "Acme", invoiceNumber := "INV-1",
    status := .sent, date := 2, dueDate := 10, amount := 10000,
    paidAmount := none, adjustments := none }

/-- State holding `wInvoice` only. -/
def wState : AppState :=
  { baseState with invoices := [wInvoice] }

/-- A ₹9,800 net credit receipt with auto-TDS (spec §8 scenario 3). -/
def wPayload : PaymentPayload :=
  { invoiceId := "I1", date := 3, reference := "UTR9", amount := 9800,
    type := .credit, category := "Full payment", debitNoteNo := "",
    autoTds := true }

/-- A vendor carrying a ₹100 balance. -/
def wVendor : Vendor :=
  { id := "v1", name := "Vend", balance := 100, lastActivity := none }

/-- State holding `wVendor` only. -/
def c3State : AppState :=
  { baseState with vendors := [wVendor] }

/-- A plain ₹10 vendor payment to `v1` without auto-TDS. -/
def c3Payload : VendorPaymentPayload :=
  { vendorIds := ["v1"], date := 1, amount := 10, category := "Full payment",
    reference := "UTR1", autoTds := false, bookingId := "" }

/-- A vendor payment with an empty vendor list. -/
def c10Payload : VendorPaymentPayload :=
  { vendorIds := [], date := 1, amount := 10, category := "Full payment",
    reference := "UTR2", autoTds := false, bookingId := "" }

/-- An empty state owned by an accountant. -/
def accState : AppState :=
  { baseState with currentUser := userAccountant }

/-- A pending trip for vendor `v1` costing ₹3. -/
def c5Booking : Booking :=
  { id := "b1", customerId := "c1", vehicleId := "veh1", expense := 3,
    status := "pending", vendorId := some "v1", vendorName := some "Vend" }

/-- `wVendor` with a ₹5 balance. -/
def c5Vendor : Vendor :=
  { wVendor with balance := 5 }

/-- A vendor with a small balance plus a pending trip. -/
def c5State : AppState :=
  { baseState with vendors := [c5Vendor], bookings := [c5Booking] }

/-- A payment run followed by a trip completion. -/
def c5Acts : List (AppAction × ℤ) :=
  [(.recordVendorPayment c3Payload, 0), (.completeTrip "b1", 1)]

/-- A pending trip for vendor `v1` costing ₹5,000 (spec §8 scenario 4). -/
def c6Booking : Booking :=
  { id := "b1", customerId := "c1", vehicleId := "veh1", expense := 5000,
    status := "pending", vendorId := some "v1", vendorName := some "Vend" }

/-- `wVendor` with a ₹7 balance. -/
def c6Vendor : Vendor :=
  { wVendor with balance := 7 }

/-- Vendor and pending trip, freight not yet posted. -/
def c6State : AppState :=
  { baseState with vendors := [c6Vendor], bookings := [c6Booking] }

/-- A freight expense for trip `b1` already present in the ledger. -/
def c6PriorExpense : Expense :=
  { id := "e0", vehicleId := "veh1", category := "Freight", amount := 5000,
    date := 0, vendor := "Vend", vendorId := some "v1", bookingId := some "b1",
    entryType := some "Manual", status := "approved" }

/-- Same as `c6State` but with the freight for `b1` already posted. -/
def c6PreState : AppState :=
  { c6State with expenses := [c6PriorExpense] }

/-- A credit transaction against `INV-1` dated *before* the invoice. -/
def c9Tx : Transaction :=
  { id := "t1", customerId := some "c1", vendorId := none, vendorName := none,
    date := 1, amount := 10, type := .credit,
    description := "Partial payment - INV-1", referenceId := some "I1",
    matched := true, referenceNo := none, category := none }

/-- Invoice dated 2 with a linked payment dated 1: in newest-first order
the invoice row precedes the payment row. -/
def c9State : AppState :=
  { wState with transactions := [c9Tx] }

/-- Invoice and linked payment sharing the same date. -/
def c9bState : AppState :=
  { wState with transactions := [{ c9Tx with date := 2 }] }

/-! ## Helper lemmas -/

lemma find?_vendor_none {vendors : List Vendor} {vid : String}
    (h : ∀ v ∈ vendors, v.id ≠ vid) :
    vendors.find? (fun v => v.id == vid) = none :=
  List.find?_eq_none.mpr (fun v hv => by simpa using h v hv)

lemma rvpFold_no_match (p : VendorPaymentPayload) (now : ℤ) :
    ∀ (vids : List String) (vendors : List Vendor) (txs : List Transaction),
      (∀ vid ∈ vids, ∀ v ∈ vendors, v.id ≠ vid) →
      vids.foldl (rvpStep p now) (vendors, txs) = (vendors, txs) := by
  intro vids
  induction vids with
  | nil => intro vendors txs _; rfl
  | cons vid rest ih =>
    intro vendors txs h
    have hfind : vendors.find? (fun v => v.id == vid) = none :=
      find?_vendor_none (fun v hv => h vid (by simp) v hv)
    rw [List.foldl_cons]
    have hstep : rvpStep p now (vendors, txs) vid = (vendors, txs) := by
      simp [rvpStep, hfind]
    rw [hstep]
    exact ih vendors txs (fun w hw v hv => h w (by simp [hw]) v hv)

/-! ## Claims about the reducer -/

/-- C7: with an `Accountant` acting user, `DeleteInvoice` leaves every
collection (invoices, audit log included) unchanged and appends exactly
one error notification, for any payload id; with any other role the
referenced invoice is removed and an audit entry is prepended. -/
theorem c7_delete_invoice_role_gate (st : AppState) (invId : String) (now : ℤ) :
    (st.currentUser.role = "Accountant" →
      appReducer st (AppAction.deleteInvoice invId) now =
        { st with notifications := st.notifications ++
            [{ id := "n_" ++ toString now, type := "error",
               message := "Access Denied: Accountants cannot delete records." }] }) ∧
    (st.currentUser.role ≠ "Accountant" →
      (appReducer st (AppAction.deleteInvoice invId) now).invoices =
        st.invoices.filter (fun i => i.id != invId) ∧
      (appReducer st (AppAction.deleteInvoice invId) now).auditLogs =
        createLog st "Delete" "Invoice"
          (jsOr ((st.invoices.find? (fun i => i.id == invId)).map
            (fun i => i.invoiceNumber)) invId)
          "Deleted Invoice Record" none none now :: st.auditLogs ∧
      (appReducer st (AppAction.deleteInvoice invId) now).notifications =
        st.notifications ++
          [{ id := "n_" ++ toString now, type := "success",
             message := "Invoice deleted." }]) := by
  constructor
  · intro h
    simp [appReducer, deleteInvoice, h]
  · intro h
    refine ⟨?_, ?_, ?_⟩ <;> simp [appReducer, deleteInvoice, h]

/-- C7 witness: an accountant's delete attempt on an empty state only
appends the error notification. -/
theorem c7_delete_invoice_role_gate_witness :
    appReducer accState (AppAction.deleteInvoice "X") 0 =
      { accState with notifications := accState.notifications ++
          [{ id := "n_" ++ toString (0 : ℤ), type := "error",
             message := "Access Denied: Accountants cannot delete records." }] } :=
  (c7_delete_invoice_role_gate accState "X" 0).1 rfl

/-- C10: a `RecordVendorPayment` whose vendor ids match no vendor (the
empty list included) leaves vendors and transactions unchanged yet still
prepends exactly one batch audit entry and appends exactly one success
notification. -/
theorem c10_vendor_payment_no_match (st : AppState) (p : VendorPaymentPayload)
    (now : ℤ) (h : ∀ vid ∈ p.vendorIds, ∀ v ∈ st.vendors, v.id ≠ vid) :
    appReducer st (AppAction.recordVendorPayment p) now =
      { st with
          auditLogs := createLog st "Record" "Payment"
            (toString p.vendorIds.length ++ " Vendor(s)")
            ("Recorded " ++ p.category ++ " of " ++ formatINR p.amount ++ " " ++
              (if p.autoTds then "(+TDS)" else "")) none none now ::
            st.auditLogs
          notifications := st.notifications ++
            [{ id := "n_" ++ toString now, type := "success",
               message := "Vendor payment recorded." }] } := by
  have hf := rvpFold_no_match p now p.vendorIds st.vendors [] h
  simp [appReducer, recordVendorPayment, rvpApply, hf]

/-- C10 witness: an empty vendor-id batch on a one-vendor state. -/
theorem c10_vendor_payment_no_match_witness :
    (∀ vid ∈ c10Payload.vendorIds, ∀ v ∈ c3State.vendors, v.id ≠ vid) ∧
    appReducer c3State (AppAction.recordVendorPayment c10Payload) 5 =
      { c3State with
          auditLogs := createLog c3State "Record" "Payment"
            (toString c10Payload.vendorIds.length ++ " Vendor(s)")
            ("Recorded " ++ c10Payload.category ++ " of " ++
              formatINR c10Payload.amount ++ " " ++
              (if c10Payload.autoTds then "(+TDS)" else "")) none none 5 ::
            c3State.auditLogs
          notifications := c3State.notifications ++
            [{ id := "n_" ++ toString (5 : ℤ), type := "success",
               message := "Vendor payment recorded." }] } :=
  ⟨by decide, c10_vendor_payment_no_match c3State c10Payload 5 (by decide)⟩

/-- C3: the reducer is *not* pure — `RECORD_VENDOR_PAYMENT` copies the
vendor array with a spread but mutates the shared vendor objects in
place, so the balance and `lastActivity` of a vendor record belonging to
the input state change: with a ₹100 vendor and a ₹10 payment the input
state's vendor reads back with balance ₹90 and a refreshed timestamp. -/
theorem c3_reducer_mutates_input :
    recordVendorPaymentInputVendorsAfter c3State c3Payload 5 ≠ c3State.vendors ∧
    (recordVendorPaymentInputVendorsAfter c3State c3Payload 5).map
      (fun v => v.balance) = [90] ∧
    c3State.vendors.map (fun v => v.balance) = [100] ∧
    (recordVendorPaymentInputVendorsAfter c3State c3Payload 5).map
      (fun v => v.lastActivity) = [some 5] := by
  have hval : recordVendorPaymentInputVendorsAfter c3State c3Payload 5 =
      [{ id := "v1", name := "Vend", balance := 90, lastActivity := some 5 }] := by
    show (rvpApply c3Payload 5 c3State.vendors).1 = _
    simp [rvpApply, rvpStep, c3State, c3Payload, baseState, wVendor, updateFirstVendor]
    norm_num
  rw [hval]
  refine ⟨by decide, by decide, by decide, by decide⟩

/-- C4 counterexample: `DeleteInvoice` with an id absent from the state,
dispatched by a non-Accountant, does *not* return the unchanged state —
an audit entry and a success notification are still appended. -/
theorem c4_counterexample :
    baseState.currentUser.role ≠ "Accountant" ∧
    (∀ i ∈ baseState.invoices, i.id ≠ "ghost") ∧
    appReducer baseState (AppAction.deleteInvoice "ghost") 0 ≠ baseState := by
  refine ⟨by decide, by decide, by decide⟩

/-- C4 (amended): `RecordPayment`, `ApproveExpense` and `CompleteTrip`
with an unknown id return the unchanged state with no notification and no
audit entry; `DeleteInvoice` with an unknown id (by a non-Accountant)
leaves the invoices unchanged but still prepends one audit entry and
appends one success notification. -/
theorem c4_amended_unknown_ids (st : AppState) (now : ℤ) (p : PaymentPayload)
    (eid bid did : String)
    (hinv : ∀ i ∈ st.invoices, i.id ≠ p.invoiceId)
    (hexp : ∀ e ∈ st.expenses, e.id ≠ eid)
    (hbk : ∀ b ∈ st.bookings, b.id ≠ bid)
    (hdel : ∀ i ∈ st.invoices, i.id ≠ did)
    (hrole : st.currentUser.role ≠ "Accountant") :
    appReducer st (AppAction.recordPayment p) now = st ∧
    appReducer st (AppAction.approveExpense eid) now = st ∧
    appReducer st (AppAction.completeTrip bid) now = st ∧
    appReducer st (AppAction.deleteInvoice did) now =
      { st with
          auditLogs := createLog st "Delete" "Invoice" did
            "Deleted Invoice Record" none none now :: st.auditLogs
          notifications := st.notifications ++
            [{ id := "n_" ++ toString now, type := "success",
               message := "Invoice deleted." }] } := by
  have hfi : st.invoices.find? (fun i => i.id == p.invoiceId) = none :=
    List.find?_eq_none.mpr (fun i hi => by simpa using hinv i hi)
  have hfe : st.expenses.find? (fun e => e.id == eid) = none :=
    List.find?_eq_none.mpr (fun e he => by simpa using hexp e he)
  have hfb : st.bookings.find? (fun b => b.id == bid) = none :=
    List.find?_eq_none.mpr (fun b hb => by simpa using hbk b hb)
  have hfd : st.invoices.find? (fun i => i.id == did) = none :=
    List.find?_eq_none.mpr (fun i hi => by simpa using hdel i hi)
  have hfilter : st.invoices.filter (fun i => i.id != did) = st.invoices :=
    List.filter_eq_self.mpr (fun i hi => by simpa using hdel i hi)
  refine ⟨?_, ?_, ?_, ?_⟩
  · simp [appReducer, recordPayment, hfi]
  · simp [appReducer, approveExpense, hfe]
  · simp [appReducer, completeTrip, hfb]
  · simp [appReducer, deleteInvoice, hrole, hfd, hfilter, jsOr, jsStrFalsy]

/-- C4 (amended) witness: unknown ids on the empty admin state. -/
theorem c4_amended_unknown_ids_witness :
    (∀ i ∈ baseState.invoices, i.id ≠ wPayload.invoiceId) ∧
    (∀ e ∈ baseState.expenses, e.id ≠ "ghostE") ∧
    (∀ b ∈ baseState.bookings, b.id ≠ "ghostB") ∧
    (∀ i ∈ baseState.invoices, i.id ≠ "ghostI") ∧
    baseState.currentUser.role ≠ "Accountant" ∧
    (appReducer baseState (AppAction.recordPayment wPayload) 0 = baseState ∧
     appReducer baseState (AppAction.approveExpense "ghostE") 0 = baseState ∧
     appReducer baseState (AppAction.completeTrip "ghostB") 0 = baseState ∧
     appReducer baseState (AppAction.deleteInvoice "ghostI") 0 =
       { baseState with
           auditLogs := createLog baseState "Delete" "Invoice" "ghostI"
             "Deleted Invoice Record" none none 0 :: baseState.auditLogs
           notifications := baseState.notifications ++
             [{ id := "n_" ++ toString (0 : ℤ), type := "success",
                message := "Invoice deleted." }] }) :=
  ⟨by decide, by decide, by decide, by decide, by decide,
    c4_amended_unknown_ids baseState 0 wPayload "ghostE" "ghostB" "ghostI"
      (by decide) (by decide) (by decide) (by decide) (by decide)⟩

lemma recordPaymentStatus_eq_claimStatus (b amount : ℚ) (dueDate now : ℤ) :
    recordPaymentStatus b amount dueDate now = claimStatus b amount dueDate now := by
  unfold recordPaymentStatus claimStatus
  rcases le_or_lt b 5 with h1 | h1
  · simp [h1]
  · have h0 : 0 < b := lt_trans (by norm_num) h1
    have h1' : ¬ b ≤ 5 := not_le.mpr h1
    by_cases h2 : b < amount
    · simp [h1', h2, h0]
    · simp [h1', h2]

lemma find?_map_id_preserving {f : Invoice → Invoice}
    (hid : ∀ i, (f i).id = i.id) (l : List Invoice) (s : String) :
    (l.map f).find? (fun i => i.id == s) =
      (l.find? (fun i => i.id == s)).map f := by
  rw [List.find?_map]
  have hp : ((fun i => i.id == s) ∘ f) = (fun i : Invoice => i.id == s) :=
    funext fun i => by simp [Function.comp, hid]
  rw [hp]

/-- C1: on a found invoice, when `autoTds` holds, the direction is credit
and the category is a cash movement, `RecordPayment` of net amount `N`
raises `paidAmount` by exactly `N` and `adjustments` by exactly
`round((N/0.98)*0.02)`, and prepends exactly two transactions — the
primary entry for `N` (described "Bank Receipt" for the Full/Partial
payment categories) and the "TDS Deduction (2%)" entry for the rounded
amount — both dated with the supplied date and both `matched`; otherwise
(the TDS trigger condition failing) exactly one transaction is
prepended. -/
theorem c1_record_payment_tds_split (st : AppState) (p : PaymentPayload)
    (now : ℤ) (inv : Invoice)
    (hfind : st.invoices.find? (fun i => i.id == p.invoiceId) = some inv) :
    (p.autoTds = true → p.type = TxType.credit →
      isNonCashCategory p.category = false →
      ((appReducer st (AppAction.recordPayment p) now).invoices =
        st.invoices.map (fun i => if i.id == inv.id then
          { i with
              paidAmount := some (inv.paidAmount.getD 0 + p.amount)
              adjustments := some (inv.adjustments.getD 0 + tdsOf p.amount)
              status := recordPaymentStatus
                (inv.amount - (inv.paidAmount.getD 0 + p.amount +
                  (inv.adjustments.getD 0 + tdsOf p.amount)))
                inv.amount inv.dueDate now }
          else i) ∧
      (appReducer st (AppAction.recordPayment p) now).transactions =
        { id := "tx_" ++ toString now, customerId := some inv.customerId,
          vendorId := none, vendorName := none, date := p.date,
          amount := p.amount, type := p.type,
          description := recordPaymentMainDesc p inv.invoiceNumber,
          referenceId := some inv.id, matched := true, referenceNo := none,
          category := none } ::
        { id := "tx_tds_" ++ toString now ++ "_2",
          customerId := some inv.customerId, vendorId := none,
          vendorName := none, date := p.date, amount := tdsOf p.amount,
          type := TxType.credit,
          description := "TDS Deduction (2%) - " ++ inv.invoiceNumber,
          referenceId := some inv.id, matched := true, referenceNo := none,
          category := none } :: st.transactions ∧
      ((p.category = "Full payment" ∨ p.category = "Partial payment") →
        recordPaymentMainDesc p inv.invoiceNumber =
          "Bank Receipt - " ++ inv.invoiceNumber))) ∧
    (¬(p.autoTds = true ∧ p.type = TxType.credit ∧
        isNonCashCategory p.category = false) →
      (appReducer st (AppAction.recordPayment p) now).transactions.length =
        st.transactions.length + 1 ∧
      ((appReducer st (AppAction.recordPayment p) now).invoices.find?
          (fun i => i.id == p.invoiceId)).map (fun i => i.adjustments) =
        some (some (if isNonCashCategory p.category then
          (if p.type == TxType.credit then inv.adjustments.getD 0 + p.amount
           else inv.adjustments.getD 0 - p.amount)
          else inv.adjustments.getD 0))) := by
  constructor
  · intro h1 h2 h3
    refine ⟨?_, ?_, ?_⟩
    · simp [appReducer, recordPayment, hfind, h1, h2, h3]
    · simp [appReducer, recordPayment, hfind, h1, h2, h3]
    · rintro (hc | hc) <;> simp [recordPaymentMainDesc, h1, hc]
  · intro hn
    have hd : (p.autoTds && p.type == TxType.credit &&
        !(isNonCashCategory p.category)) = false := by
      by_cases ha : p.autoTds = true
      · by_cases hb : isNonCashCategory p.category = true
        · simp [hb]
        · have hb' : isNonCashCategory p.category = false :=
            Bool.eq_false_iff.mpr hb
          cases ht : p.type with
          | credit => exact absurd ⟨ha, ht, hb'⟩ hn
          | debit => simp [ht]
      · have ha2 : p.autoTds = false := Bool.eq_false_iff.mpr ha
        simp [ha2]
    constructor
    · simp [appReducer, recordPayment, hfind, hd]
    · simp only [appReducer, recordPayment, hfind, hd]
      rw [find?_map_id_preserving (fun i => by
        by_cases hcase : (i.id == inv.id) = true <;> simp [hcase])]
      rw [hfind]
      simp

/-- C1 witness: spec §8 scenario 3 — ₹9,800 net against a fresh ₹10,000
invoice. -/
theorem c1_record_payment_tds_split_witness :
    (wState.invoices.find? (fun i => i.id == wPayload.invoiceId) = some wInvoice) ∧
    ((wPayload.autoTds = true → wPayload.type = TxType.credit →
      isNonCashCategory wPayload.category = false →
      ((appReducer wState (AppAction.recordPayment wPayload) 7).invoices =
        wState.invoices.map (fun i => if i.id == wInvoice.id then
          { i with
              paidAmount := some (wInvoice.paidAmount.getD 0 + wPayload.amount)
              adjustments := some (wInvoice.adjustments.getD 0 + tdsOf wPayload.amount)
              status := recordPaymentStatus
                (wInvoice.amount - (wInvoice.paidAmount.getD 0 + wPayload.amount +
                  (wInvoice.adjustments.getD 0 + tdsOf wPayload.amount)))
                wInvoice.amount wInvoice.dueDate 7 }
          else i) ∧
      (appReducer wState (AppAction.recordPayment wPayload) 7).transactions =
        { id := "tx_" ++ toString (7 : ℤ), customerId := some wInvoice.customerId,
          vendorId := none, vendorName := none, date := wPayload.date,
          amount := wPayload.amount, type := wPayload.type,
          description := recordPaymentMainDesc wPayload wInvoice.invoiceNumber,
          referenceId := some wInvoice.id, matched := true, referenceNo := none,
          category := none } ::
        { id := "tx_tds_" ++ toString (7 : ℤ) ++ "_2",
          customerId := some wInvoice.customerId, vendorId := none,
          vendorName := none, date := wPayload.date, amount := tdsOf wPayload.amount,
          type := TxType.credit,
          description := "TDS Deduction (2%) - " ++ wInvoice.invoiceNumber,
          referenceId := some wInvoice.id, matched := true, referenceNo := none,
          category := none } :: wState.transactions ∧
      ((wPayload.category = "Full payment" ∨ wPayload.category = "Partial payment") →
        recordPaymentMainDesc wPayload wInvoice.invoiceNumber =
          "Bank Receipt - " ++ wInvoice.invoiceNumber))) ∧
    (¬(wPayload.autoTds = true ∧ wPayload.type = TxType.credit ∧
        isNonCashCategory wPayload.category = false) →
      (appReducer wState (AppAction.recordPayment wPayload) 7).transactions.length =
        wState.transactions.length + 1 ∧
      ((appReducer wState (AppAction.recordPayment wPayload) 7).invoices.find?
          (fun i => i.id == wPayload.invoiceId)).map (fun i => i.adjustments) =
        some (some (if isNonCashCategory wPayload.category then
          (if wPayload.type == TxType.credit then
            wInvoice.adjustments.getD 0 + wPayload.amount
           else wInvoice.adjustments.getD 0 - wPayload.amount)
          else wInvoice.adjustments.getD 0)))) :=
  ⟨by decide, c1_record_payment_tds_split wState wPayload 7 wInvoice (by decide)⟩

/-- C2: after a `RecordPayment` on a found invoice the stored record
carries exactly the unclamped updated `paidAmount` and `adjustments`, and
a status derived from the balance `b = amount − (paidAmount' + adjustments')`
computed with the updated values by the rule: `paid` when `b ≤ 5`, else
`sent` when `0 < b < amount`, else `overdue` when the due date is past,
otherwise `sent`; a negative balance (overpayment) stays representable and
is classified `paid`. -/
theorem c2_record_payment_status_rule (st : AppState) (p : PaymentPayload)
    (now : ℤ) (inv : Invoice)
    (hfind : st.invoices.find? (fun i => i.id == p.invoiceId) = some inv) :
    ((appReducer st (AppAction.recordPayment p) now).invoices =
      st.invoices.map (fun i => if i.id == inv.id then
        { i with
            paidAmount := some (rpNewPaid p inv)
            adjustments := some (rpNewAdjustments p inv)
            status := claimStatus
              (inv.amount - (rpNewPaid p inv + rpNewAdjustments p inv))
              inv.amount inv.dueDate now }
        else i)) ∧
    (inv.amount - (rpNewPaid p inv + rpNewAdjustments p inv) < 0 →
      claimStatus (inv.amount - (rpNewPaid p inv + rpNewAdjustments p inv))
        inv.amount inv.dueDate now = InvoiceStatus.paid) := by
  have hstat : recordPaymentStatus = claimStatus := by
    funext b a d n
    exact recordPaymentStatus_eq_claimStatus b a d n
  constructor
  · simp only [appReducer, recordPayment, hfind, rpNewPaid, rpNewAdjustments, hstat]
  · intro hb
    unfold claimStatus
    rw [if_pos (by linarith)]

/-- C2 witness: the scenario-3 payment on the one-invoice state. -/
theorem c2_record_payment_status_rule_witness :
    (wState.invoices.find? (fun i => i.id == wPayload.invoiceId) = some wInvoice) ∧
    (((appReducer wState (AppAction.recordPayment wPayload) 8).invoices =
      wState.invoices.map (fun i => if i.id == wInvoice.id then
        { i with
            paidAmount := some (rpNewPaid wPayload wInvoice)
            adjustments := some (rpNewAdjustments wPayload wInvoice)
            status := claimStatus
              (wInvoice.amount -
                (rpNewPaid wPayload wInvoice + rpNewAdjustments wPayload wInvoice))
              wInvoice.amount wInvoice.dueDate 8 }
        else i)) ∧
    (wInvoice.amount -
        (rpNewPaid wPayload wInvoice + rpNewAdjustments wPayload wInvoice) < 0 →
      claimStatus
        (wInvoice.amount -
          (rpNewPaid wPayload wInvoice + rpNewAdjustments wPayload wInvoice))
        wInvoice.amount wInvoice.dueDate 8 = InvoiceStatus.paid)) :=
  ⟨by decide, c2_record_payment_status_rule wState wPayload 8 wInvoice (by decide)⟩

lemma mem_updateFirstVendor {f : Vendor → Vendor} {vid : String} :
    ∀ {l : List Vendor} {v : Vendor}, v ∈ updateFirstVendor f vid l →
      v ∈ l ∨ ∃ w ∈ l, v = f w := by
  intro l
  induction l with
  | nil => intro v hv; simp [updateFirstVendor] at hv
  | cons w ws ih =>
    intro v hv
    rw [updateFirstVendor] at hv
    split at hv
    · rcases List.mem_cons.mp hv with h | h
      · exact Or.inr ⟨w, by simp, h⟩
      · exact Or.inl (List.mem_cons.mpr (Or.inr h))
    · rcases List.mem_cons.mp hv with h | h
      · exact Or.inl (by simp [h])
      · rcases ih h with h2 | ⟨u, hu, he⟩
        · exact Or.inl (List.mem_cons.mpr (Or.inr h2))
        · exact Or.inr ⟨u, by simp [hu], he⟩

lemma rvpStep_vendors_nonneg (p : VendorPaymentPayload) (now : ℤ)
    (acc : List Vendor × List Transaction) (vid : String)
    (h : ∀ v ∈ acc.1, 0 ≤ v.balance) :
    ∀ v ∈ (rvpStep p now acc vid).1, 0 ≤ v.balance := by
  intro v hv
  unfold rvpStep at hv
  rcases hfind : acc.1.find? (fun v => v.id == vid) with _ | vendor <;>
    rw [hfind] at hv
  · exact h v hv
  · rcases mem_updateFirstVendor hv with h1 | ⟨w, hw, he⟩
    · exact h v h1
    · subst he
      exact le_max_left 0 _

lemma rvpFold_vendors_nonneg (p : VendorPaymentPayload) (now : ℤ) :
    ∀ (vids : List String) (acc : List Vendor × List Transaction),
      (∀ v ∈ acc.1, 0 ≤ v.balance) →
      ∀ v ∈ (vids.foldl (rvpStep p now) acc).1, 0 ≤ v.balance := by
  intro vids
  induction vids with
  | nil => intro acc h v hv; exact h v hv
  | cons vid rest ih =>
    intro acc h v hv
    rw [List.foldl_cons] at hv
    exact ih _ (rvpStep_vendors_nonneg p now acc vid h) v hv

lemma completeTrip_preserves (st : AppState) (bid : String) (now : ℤ)
    (h1 : vendorsNonneg st) (h2 : bookingExpensesNonneg st) :
    vendorsNonneg (completeTrip st bid now) ∧
    (completeTrip st bid now).bookings = st.bookings := by
  rcases hfind : st.bookings.find? (fun b => b.id == bid) with _ | booking
  · unfold completeTrip
    rw [hfind]
    exact ⟨h1, rfl⟩
  · by_cases hv : jsStrFalsy booking.vendorId = true
    · unfold completeTrip
      rw [hfind]
      simp only [hv, if_true]
      exact ⟨h1, trivial⟩
    · have hv' : jsStrFalsy booking.vendorId = false := Bool.eq_false_iff.mpr hv
      rcases hexp : st.expenses.find?
          (fun e => e.bookingId == some bid && e.category == "Freight") with _ | e
      · constructor
        · intro v hv2
          unfold completeTrip at hv2
          rw [hfind] at hv2
          simp only [hv', Bool.false_eq_true, if_false] at hv2
          rw [hexp] at hv2
          rcases List.mem_map.mp hv2 with ⟨w, hw, he⟩
          subst he
          by_cases hid : (some w.id == booking.vendorId) = true
          · simp only [hid, if_true]
            have hbmem : booking ∈ st.bookings := List.mem_of_find?_eq_some hfind
            exact add_nonneg (h1 w hw) (h2 booking hbmem)
          · have hid2 : (some w.id == booking.vendorId) = false :=
              Bool.eq_false_iff.mpr hid
            simp only [hid2, Bool.false_eq_true, if_false]
            exact h1 w hw
        · unfold completeTrip
          rw [hfind]
          simp only [hv', Bool.false_eq_true, if_false]
          rw [hexp]
      · unfold completeTrip
        rw [hfind]
        simp only [hv', Bool.false_eq_true, if_false]
        rw [hexp]
        exact ⟨h1, rfl⟩

lemma vendorFlow_step_preserves (st : AppState) (a : AppAction) (now : ℤ)
    (ha : isVendorFlowAction a = true) (h1 : vendorsNonneg st)
    (h2 : bookingExpensesNonneg st) :
    vendorsNonneg (appReducer st a now) ∧
    bookingExpensesNonneg (appReducer st a now) := by
  cases a with
  | recordVendorPayment p =>
    constructor
    · intro v hv
      exact rvpFold_vendors_nonneg p now p.vendorIds (st.vendors, []) h1 v hv
    · exact h2
  | completeTrip bid =>
    have hp := completeTrip_preserves st bid now h1 h2
    refine ⟨hp.1, ?_⟩
    intro b hb
    rw [show (appReducer st (AppAction.completeTrip bid) now).bookings =
      st.bookings from hp.2] at hb
    exact h2 b hb
  | deleteInvoice i => simp [isVendorFlowAction] at ha
  | approveExpense i => simp [isVendorFlowAction] at ha
  | recordPayment p => simp [isVendorFlowAction] at ha

/-- C5: from a state with non-negative vendor balances and non-negative
booking trip costs, any finite sequence of `RecordVendorPayment` and
`CompleteTrip` actions keeps every vendor balance non-negative —
payments floor the balance at zero and trip completion only adds the
booking's (non-negative) expense. -/
theorem c5_vendor_balance_floor (st : AppState) (acts : List (AppAction × ℤ))
    (h1 : vendorsNonneg st) (h2 : bookingExpensesNonneg st)
    (hacts : ∀ x ∈ acts, isVendorFlowAction x.1 = true) :
    vendorsNonneg (runActions st acts) := by
  induction acts generalizing st with
  | nil => exact h1
  | cons a rest ih =>
    have hstep := vendorFlow_step_preserves st a.1 a.2 (hacts a (by simp)) h1 h2
    have hrun : runActions st (a :: rest) =
        runActions (appReducer st a.1 a.2) rest := rfl
    rw [hrun]
    exact ih (appReducer st a.1 a.2) hstep.1 hstep.2
      (fun x hx => hacts x (by simp [hx]))

/-- C5 witness: a payment exceeding the vendor's balance followed by a
trip completion. -/
theorem c5_vendor_balance_floor_witness :
    vendorsNonneg c5State ∧ bookingExpensesNonneg c5State ∧
    (∀ x ∈ c5Acts, isVendorFlowAction x.1 = true) ∧
    vendorsNonneg (runActions c5State c5Acts) :=
  ⟨by decide, by decide, by decide,
    c5_vendor_balance_floor c5State c5Acts (by decide) (by decide) (by decide)⟩

lemma find?_append_of_none {α : Type} (p : α → Bool) :
    ∀ (l₁ l₂ : List α), (∀ x ∈ l₁, ¬ p x = true) →
      (l₁ ++ l₂).find? p = l₂.find? p := by
  intro l₁
  induction l₁ with
  | nil => intro l₂ _; simp
  | cons a l ih =>
    intro l₂ h
    rw [List.cons_append, List.find?_cons_of_neg _ (h a (by simp))]
    exact ih l₂ (fun x hx => h x (by simp [hx]))

/-- C6 counterexample: when a Freight expense for the booking already
exists in the initial state, a booking that exists and has a vendor
assigned goes through two `CompleteTrip` dispatches with *zero*
vendor-balance increases and zero new Freight expenses — refuting
"exactly one Freight expense and exactly one increase" as universally
stated. -/
theorem c6_counterexample :
    c6PreState.bookings.find? (fun x => x.id == "b1") = some c6Booking ∧
    c6Booking.vendorId = some "v1" ∧
    (appReducer c6PreState (AppAction.completeTrip "b1") 0).vendors =
      c6PreState.vendors ∧
    (appReducer (appReducer c6PreState (AppAction.completeTrip "b1") 0)
        (AppAction.completeTrip "b1") 1).vendors = c6PreState.vendors ∧
    (appReducer (appReducer c6PreState (AppAction.completeTrip "b1") 0)
        (AppAction.completeTrip "b1") 1).expenses = c6PreState.expenses := by
  refine ⟨by decide, by decide, by decide, by decide, by decide⟩

/-- C6 (amended): provided no Freight expense for the booking exists yet,
two successive `CompleteTrip` dispatches on a booking with a vendor
assigned post exactly one Freight expense linked to the booking, increase
that vendor's balance exactly once (by the booking's expense), and the
second dispatch returns the first state unchanged except for one
additional warning notification. -/
theorem c6_amended_freight_idempotent (st : AppState) (bookingId vid : String)
    (b : Booking) (now1 now2 : ℤ)
    (hfind : st.bookings.find? (fun x => x.id == bookingId) = some b)
    (hvid : b.vendorId = some vid) (hv : vid ≠ "")
    (hfresh : st.expenses.find?
      (fun e => e.bookingId == some bookingId && e.category == "Freight") = none) :
    ((appReducer st (AppAction.completeTrip bookingId) now1).expenses.filter
        (fun e => e.bookingId == some bookingId && e.category == "Freight")).length
      = 1 ∧
    (appReducer st (AppAction.completeTrip bookingId) now1).vendors =
      st.vendors.map (fun v => if some v.id == b.vendorId then
        { v with balance := v.balance + b.expense, lastActivity := some now1 }
        else v) ∧
    appReducer (appReducer st (AppAction.completeTrip bookingId) now1)
        (AppAction.completeTrip bookingId) now2 =
      { appReducer st (AppAction.completeTrip bookingId) now1 with
          notifications :=
            (appReducer st (AppAction.completeTrip bookingId) now1).notifications
              ++ [{ id := "n_" ++ toString now2, type := "warning",
                    message := "Trip " ++ bookingId ++ " already posted to ledger." }] } := by
  have hfalsy : jsStrFalsy b.vendorId = false := by
    rw [hvid]
    simpa [jsStrFalsy] using hv
  have hbeq : b.id = bookingId := by simpa using List.find?_some hfind
  have hall : ∀ e ∈ st.expenses,
      ¬ (e.bookingId == some bookingId && e.category == "Freight") = true :=
    List.find?_eq_none.mp hfresh
  have hnil : st.expenses.filter
      (fun e => e.bookingId == some bookingId && e.category == "Freight") = [] :=
    List.filter_eq_nil_iff.mpr hall
  refine ⟨?_, ?_, ?_⟩
  · simp [appReducer, completeTrip, hfind, hfalsy, hfresh, List.filter_append,
      hnil, hbeq]
  · simp [appReducer, completeTrip, hfind, hfalsy, hfresh]
  · simp [appReducer, completeTrip, hfind, hfalsy, hfresh,
      find?_append_of_none _ _ _ hall, hbeq]

/-- C6 (amended) witness: spec §8 scenario 4 — a ₹5,000 trip completed
twice. -/
theorem c6_amended_freight_idempotent_witness :
    (c6State.bookings.find? (fun x => x.id == "b1") = some c6Booking) ∧
    c6Booking.vendorId = some "v1" ∧ "v1" ≠ "" ∧
    (c6State.expenses.find?
      (fun e => e.bookingId == some "b1" && e.category == "Freight") = none) ∧
    (((appReducer c6State (AppAction.completeTrip "b1") 3).expenses.filter
        (fun e => e.bookingId == some "b1" && e.category == "Freight")).length
      = 1 ∧
    (appReducer c6State (AppAction.completeTrip "b1") 3).vendors =
      c6State.vendors.map (fun v => if some v.id == c6Booking.vendorId then
        { v with balance := v.balance + c6Booking.expense, lastActivity := some 3 }
        else v) ∧
    appReducer (appReducer c6State (AppAction.completeTrip "b1") 3)
        (AppAction.completeTrip "b1") 4 =
      { appReducer c6State (AppAction.completeTrip "b1") 3 with
          notifications :=
            (appReducer c6State (AppAction.completeTrip "b1") 3).notifications
              ++ [{ id := "n_" ++ toString (4 : ℤ), type := "warning",
                    message := "Trip " ++ "b1" ++ " already posted to ledger." }] }) :=
  ⟨by decide, by decide, by decide, by decide,
    c6_amended_freight_idempotent c6State "b1" "v1" c6Booking 3 4
      (by decide) (by decide) (by decide) (by decide)⟩

lemma ledgerRel_total (a b : LedgerEntry) : ledgerRel a b ∨ ledgerRel b a := by
  unfold ledgerRel
  rcases lt_trichotomy a.date b.date with h | h | h
  · exact Or.inl (Or.inl h)
  · by_cases hb : b.category = "Invoice"
    · by_cases ha : a.category = "Invoice"
      · exact Or.inl (Or.inr ⟨h, Or.inl ha⟩)
      · exact Or.inr (Or.inr ⟨h.symm, Or.inl hb⟩)
    · exact Or.inl (Or.inr ⟨h, Or.inr hb⟩)
  · exact Or.inr (Or.inl h)

lemma chain'_ledgerInsert (x : LedgerEntry) :
    ∀ {l : List LedgerEntry}, List.Chain' ledgerRel l →
      List.Chain' ledgerRel (ledgerInsert x l) := by
  intro l
  induction l with
  | nil => intro _; simp [ledgerInsert]
  | cons y ys ih =>
    intro h
    rw [ledgerInsert]
    split
    · rename_i hxy
      exact List.chain'_cons.mpr ⟨hxy, h⟩
    · rename_i hxy
      have hyx : ledgerRel y x := (ledgerRel_total x y).resolve_left hxy
      rw [List.chain'_cons']
      refine ⟨?_, ih h.tail⟩
      intro z hz
      cases ys with
      | nil =>
        simp [ledgerInsert] at hz
        subst hz
        exact hyx
      | cons w ws =>
        rw [ledgerInsert] at hz
        split at hz
        · simp at hz
          subst hz
          exact hyx
        · simp at hz
          subst hz
          exact (List.chain'_cons.mp h).1

lemma sortLedger_chain' : ∀ l : List LedgerEntry,
    List.Chain' ledgerRel (sortLedger l) := by
  intro l
  induction l with
  | nil => simp [sortLedger]
  | cons x xs ih =>
    rw [sortLedger]
    exact chain'_ledgerInsert x ih

lemma ledgerInsert_perm (x : LedgerEntry) :
    ∀ l : List LedgerEntry, (ledgerInsert x l).Perm (x :: l) := by
  intro l
  induction l with
  | nil => simp [ledgerInsert]
  | cons y ys ih =>
    rw [ledgerInsert]
    split
    · exact List.Perm.refl _
    · exact (ih.cons y).trans (List.Perm.swap x y ys)

lemma sortLedger_perm : ∀ l : List LedgerEntry, (sortLedger l).Perm l := by
  intro l
  induction l with
  | nil => simp [sortLedger]
  | cons x xs ih =>
    rw [sortLedger]
    exact (ledgerInsert_perm x (sortLedger xs)).trans (ih.cons x)

lemma ledgerRel_of_entryKey_eq {a b : LedgerEntry} (h : entryKey a = entryKey b) :
    ledgerRel a b := by
  unfold entryKey at h
  have hd : a.date = b.date := congrArg Prod.fst h
  have hc : (a.category == "Invoice") = (b.category == "Invoice") :=
    congrArg Prod.snd h
  unfold ledgerRel
  right
  refine ⟨hd, ?_⟩
  by_cases hb : b.category = "Invoice"
  · left
    have h1 : (b.category == "Invoice") = true := by simp [hb]
    have h2 : (a.category == "Invoice") = true := by rw [hc]; exact h1
    simpa using h2
  · exact Or.inr hb

lemma ledgerInsert_filter_key (x : LedgerEntry) (k : ℤ × Bool) :
    ∀ l : List LedgerEntry,
      (ledgerInsert x l).filter (fun e => decide (entryKey e = k)) =
        if entryKey x = k then
          x :: l.filter (fun e => decide (entryKey e = k))
        else l.filter (fun e => decide (entryKey e = k)) := by
  intro l
  induction l with
  | nil =>
    rw [ledgerInsert]
    by_cases hk : entryKey x = k
    · simp [List.filter_cons, hk]
    · simp [List.filter_cons, hk]
  | cons y ys ih =>
    rw [ledgerInsert]
    split
    · by_cases hk : entryKey x = k
      · simp [List.filter_cons, hk]
      · simp [List.filter_cons, hk]
    · rename_i hxy
      by_cases hk : entryKey x = k
      · have hky : ¬ entryKey y = k := by
          intro hEq
          exact hxy (ledgerRel_of_entryKey_eq (hk.trans hEq.symm))
        simp [List.filter_cons, hky, ih, hk]
      · by_cases hy : entryKey y = k
        · simp [List.filter_cons, hy, ih, hk]
        · simp [List.filter_cons, hy, ih, hk]

lemma sortLedger_filter_key (k : ℤ × Bool) :
    ∀ l : List LedgerEntry,
      (sortLedger l).filter (fun e => decide (entryKey e = k)) =
        l.filter (fun e => decide (entryKey e = k)) := by
  intro l
  induction l with
  | nil => rfl
  | cons x xs ih =>
    rw [sortLedger, ledgerInsert_filter_key]
    by_cases hk : entryKey x = k
    · simp [hk, ih, List.filter_cons]
    · simp [hk, ih, List.filter_cons]

lemma addBalances_length (r : ℚ) :
    ∀ l : List LedgerEntry, (addBalances r l).length = l.length := by
  intro l
  induction l generalizing r with
  | nil => rfl
  | cons e es ih =>
    rw [addBalances]
    simp [ih]

lemma addBalances_get :
    ∀ (l : List LedgerEntry) (r : ℚ) (i : ℕ)
      (h : i < (addBalances r l).length),
      ((addBalances r l).get ⟨i, h⟩).balance =
        r + ((l.take (i + 1)).map (fun e => e.debit - e.credit)).sum := by
  intro l
  induction l with
  | nil => intro r i h; simp [addBalances] at h
  | cons e es ih =>
    intro r i h
    cases i with
    | zero =>
      simp [addBalances]
      ring
    | succ i =>
      simp only [addBalances] at h ⊢
      rw [List.get_cons_succ]
      rw [ih (r + e.debit - e.credit) i (by simpa using h)]
      simp [List.take_succ_cons]
      ring

lemma not_falsy_iff {o : Option String} :
    jsStrFalsy o = false ↔ ∃ s, o = some s ∧ s ≠ "" := by
  rcases o with _ | s <;> simp [jsStrFalsy]

lemma flagShort_cons_falsy {e : LedgerEntry} {es : List LedgerEntry}
    {seen : List String} (he : jsStrFalsy e.invoiceId = true) :
    flagShort seen (e :: es) =
      { e with showShortPayment := false } :: flagShort seen es := by
  rw [flagShort, if_pos he]

lemma flagShort_cons_seen {e : LedgerEntry} {es : List LedgerEntry}
    {seen : List String} {iid : String} (he : e.invoiceId = some iid)
    (hne : iid ≠ "") (hs : seen.contains iid = true) :
    flagShort seen (e :: es) =
      { e with showShortPayment := false } :: flagShort seen es := by
  have hf : ¬ jsStrFalsy e.invoiceId = true := by
    simp [jsStrFalsy, he, hne]
  have hs2 : iid ∈ seen := by simpa using hs
  rw [flagShort, if_neg hf, he]
  simp [hs2]

lemma flagShort_cons_new {e : LedgerEntry} {es : List LedgerEntry}
    {seen : List String} {iid : String} (he : e.invoiceId = some iid)
    (hne : iid ≠ "") (hs : ¬ seen.contains iid = true) :
    flagShort seen (e :: es) =
      { e with showShortPayment := e.category != "Invoice" } ::
        flagShort (iid :: seen) es := by
  have hf : ¬ jsStrFalsy e.invoiceId = true := by
    simp [jsStrFalsy, he, hne]
  have hs2 : iid ∉ seen := by simpa using hs
  rw [flagShort, if_neg hf, he]
  simp [hs2]

lemma flagShort_map_strip : ∀ (seen : List String) (l : List LedgerEntry),
    (flagShort seen l).map stripFlag = l.map stripFlag := by
  intro seen l
  induction l generalizing seen with
  | nil => rfl
  | cons e es ih =>
    by_cases hfal : jsStrFalsy e.invoiceId = true
    · rw [flagShort_cons_falsy hfal]
      simp [stripFlag, ih]
    · obtain ⟨iid, he, hne⟩ := not_falsy_iff.mp (Bool.eq_false_iff.mpr hfal)
      by_cases hs : seen.contains iid = true
      · rw [flagShort_cons_seen he hne hs]
        simp [stripFlag, ih]
      · rw [flagShort_cons_new he hne hs]
        simp [stripFlag, ih]

/-- C8: the ledger rows are sorted by date ascending with `Invoice` rows
before transaction rows on date ties, stably (rows sharing a sort key
keep their original relative order); the running balance attached at
position `i` is the sum of `debit − credit` over the first `i+1` rows of
that ascending order; and the returned list (up to the display flag set
by the post-process) is the reversal of that order. -/
theorem c8_ledger_ordering (st : AppState) (cid : String) :
    (sortLedger (allEntries st cid)).Perm (allEntries st cid) ∧
    List.Chain' ledgerRel (sortLedger (allEntries st cid)) ∧
    (∀ k : ℤ × Bool,
      (sortLedger (allEntries st cid)).filter (fun e => decide (entryKey e = k)) =
        (allEntries st cid).filter (fun e => decide (entryKey e = k))) ∧
    (∀ (i : ℕ) (h : i < (addBalances 0 (sortLedger (allEntries st cid))).length),
      ((addBalances 0 (sortLedger (allEntries st cid))).get ⟨i, h⟩).balance =
        (((sortLedger (allEntries st cid)).take (i + 1)).map
          (fun e => e.debit - e.credit)).sum) ∧
    (ledgerData st cid "").map stripFlag =
      ((addBalances 0 (sortLedger (allEntries st cid))).map stripFlag).reverse := by
  refine ⟨sortLedger_perm _, sortLedger_chain' _,
    fun k => sortLedger_filter_key k _, ?_, ?_⟩
  · intro i h
    have hb := addBalances_get (sortLedger (allEntries st cid)) 0 i h
    simpa using hb
  · have hld : ledgerData st cid "" =
        flagShort [] ((addBalances 0 (sortLedger (allEntries st cid))).reverse) := rfl
    rw [hld, flagShort_map_strip, List.map_reverse]

/-- C8 witness: the one-invoice, one-payment state with equal dates. -/
theorem c8_ledger_ordering_witness :
    (sortLedger (allEntries c9bState "all")).Perm (allEntries c9bState "all") ∧
    List.Chain' ledgerRel (sortLedger (allEntries c9bState "all")) ∧
    (∀ k : ℤ × Bool,
      (sortLedger (allEntries c9bState "all")).filter
          (fun e => decide (entryKey e = k)) =
        (allEntries c9bState "all").filter (fun e => decide (entryKey e = k))) ∧
    (∀ (i : ℕ)
      (h : i < (addBalances 0 (sortLedger (allEntries c9bState "all"))).length),
      ((addBalances 0 (sortLedger (allEntries c9bState "all"))).get ⟨i, h⟩).balance =
        (((sortLedger (allEntries c9bState "all")).take (i + 1)).map
          (fun e => e.debit - e.credit)).sum) ∧
    (ledgerData c9bState "all" "").map stripFlag =
      ((addBalances 0 (sortLedger (allEntries c9bState "all"))).map
        stripFlag).reverse :=
  c8_ledger_ordering c9bState "all"

lemma flagShort_length : ∀ (seen : List String) (l : List LedgerEntry),
    (flagShort seen l).length = l.length := by
  intro seen l
  induction l generalizing seen with
  | nil => rfl
  | cons e es ih =>
    by_cases hfal : jsStrFalsy e.invoiceId = true
    · rw [flagShort_cons_falsy hfal]
      simp [ih]
    · obtain ⟨iid, he, hne⟩ := not_falsy_iff.mp (Bool.eq_false_iff.mpr hfal)
      by_cases hs : seen.contains iid = true
      · rw [flagShort_cons_seen he hne hs]
        simp [ih]
      · rw [flagShort_cons_new he hne hs]
        simp [ih]

lemma flagShort_get_field {β : Type} (f : LedgerEntry → β)
    (hf : ∀ e : LedgerEntry, f (stripFlag e) = f e)
    (seen : List String) (l : List LedgerEntry) (i : ℕ)
    (h1 : i < (flagShort seen l).length) (h2 : i < l.length) :
    f ((flagShort seen l).get ⟨i, h1⟩) = f (l.get ⟨i, h2⟩) := by
  have hmap := congrArg (fun ll => ll.get? i) (flagShort_map_strip seen l)
  simp only [List.get?_map] at hmap
  rw [List.get?_eq_get h1, List.get?_eq_get h2] at hmap
  have hstrip : stripFlag ((flagShort seen l).get ⟨i, h1⟩) =
      stripFlag (l.get ⟨i, h2⟩) := by simpa using hmap
  calc f ((flagShort seen l).get ⟨i, h1⟩)
      = f (stripFlag ((flagShort seen l).get ⟨i, h1⟩)) := (hf _).symm
    _ = f (stripFlag (l.get ⟨i, h2⟩)) := by rw [hstrip]
    _ = f (l.get ⟨i, h2⟩) := hf _

lemma flagShort_flag_iff :
    ∀ (l : List LedgerEntry) (seen : List String) (i : ℕ) (x : LedgerEntry),
      (flagShort seen l).get? i = some x →
      (x.showShortPayment = true ↔
        ∃ e, l.get? i = some e ∧ e.category ≠ "Invoice" ∧
          ∃ iid, e.invoiceId = some iid ∧ iid ≠ "" ∧ iid ∉ seen ∧
            ∀ y ∈ l.take i, y.invoiceId ≠ some iid) := by
  intro l
  induction l with
  | nil => intro seen i x hx; simp [flagShort] at hx
  | cons e es ih =>
    intro seen i x hx
    cases i with
    | zero =>
      by_cases hfal : jsStrFalsy e.invoiceId = true
      · rw [flagShort_cons_falsy hfal] at hx
        simp only [List.get?_cons_zero, Option.some.injEq] at hx
        subst hx
        rcases hor : e.invoiceId with _ | s
        · simp [hor]
        · have hse : s = "" := by simpa [jsStrFalsy, hor] using hfal
          subst hse
          simp [hor]
      · obtain ⟨iid0, he, hne0⟩ := not_falsy_iff.mp (Bool.eq_false_iff.mpr hfal)
        by_cases hs : seen.contains iid0 = true
        · rw [flagShort_cons_seen he hne0 hs] at hx
          simp only [List.get?_cons_zero, Option.some.injEq] at hx
          subst hx
          have hs2 : iid0 ∈ seen := by simpa using hs
          simp [he, hs2]
        · rw [flagShort_cons_new he hne0 hs] at hx
          simp only [List.get?_cons_zero, Option.some.injEq] at hx
          subst hx
          have hs2 : iid0 ∉ seen := by simpa using hs
          simp [he, hs2, hne0, bne_iff_ne]
    | succ i =>
      by_cases hfal : jsStrFalsy e.invoiceId = true
      · rw [flagShort_cons_falsy hfal] at hx
        simp only [List.get?_cons_succ] at hx
        rw [ih seen i x hx]
        simp only [List.get?_cons_succ, List.take_succ_cons]
        constructor
        · rintro ⟨e2, he2, hcat, iid, hinv, hne, hnotin, hP⟩
          refine ⟨e2, he2, hcat, iid, hinv, hne, hnotin, ?_⟩
          intro y hy
          rcases List.mem_cons.mp hy with rfl | hy2
          · rcases hor : y.invoiceId with _ | s
            · simp
            · have hse : s = "" := by simpa [jsStrFalsy, hor] using hfal
              subst hse
              rw [Ne, Option.some.injEq]
              intro hEq
              exact hne hEq.symm
          · exact hP y hy2
        · rintro ⟨e2, he2, hcat, iid, hinv, hne, hnotin, hP⟩
          exact ⟨e2, he2, hcat, iid, hinv, hne, hnotin,
            fun y hy => hP y (List.mem_cons.mpr (Or.inr hy))⟩
      · obtain ⟨iid0, he, hne0⟩ := not_falsy_iff.mp (Bool.eq_false_iff.mpr hfal)
        by_cases hs : seen.contains iid0 = true
        · rw [flagShort_cons_seen he hne0 hs] at hx
          simp only [List.get?_cons_succ] at hx
          rw [ih seen i x hx]
          simp only [List.get?_cons_succ, List.take_succ_cons]
          constructor
          · rintro ⟨e2, he2, hcat, iid, hinv, hne, hnotin, hP⟩
            refine ⟨e2, he2, hcat, iid, hinv, hne, hnotin, ?_⟩
            intro y hy
            rcases List.mem_cons.mp hy with rfl | hy2
            · rw [he]
              intro hEq
              rw [Option.some.injEq] at hEq
              subst hEq
              exact hnotin (by simpa using hs)
            · exact hP y hy2
          · rintro ⟨e2, he2, hcat, iid, hinv, hne, hnotin, hP⟩
            exact ⟨e2, he2, hcat, iid, hinv, hne, hnotin,
              fun y hy => hP y (List.mem_cons.mpr (Or.inr hy))⟩
        · rw [flagShort_cons_new he hne0 hs] at hx
          simp only [List.get?_cons_succ] at hx
          rw [ih (iid0 :: seen) i x hx]
          simp only [List.get?_cons_succ, List.take_succ_cons]
          constructor
          · rintro ⟨e2, he2, hcat, iid, hinv, hne, hnotin, hP⟩
            have h1 : iid ≠ iid0 := fun hEq => hnotin (by simp [hEq])
            have h2 : iid ∉ seen := fun hm => hnotin (by simp [hm])
            refine ⟨e2, he2, hcat, iid, hinv, hne, h2, ?_⟩
            intro y hy
            rcases List.mem_cons.mp hy with rfl | hy2
            · rw [he]
              intro hEq
              rw [Option.some.injEq] at hEq
              exact h1 hEq.symm
            · exact hP y hy2
          · rintro ⟨e2, he2, hcat, iid, hinv, hne, hnotin, hP⟩
            have hney : e.invoiceId ≠ some iid :=
              hP e (List.mem_cons.mpr (Or.inl rfl))
            refine ⟨e2, he2, hcat, iid, hinv, hne, ?_,
              fun y hy => hP y (List.mem_cons.mpr (Or.inr hy))⟩
            intro hm
            rcases List.mem_cons.mp hm with hEq | hm2
            · apply hney
              rw [he, hEq]
            · exact hnotin hm2

lemma flagShort_map_field {β : Type} (f : LedgerEntry → β)
    (hf : ∀ e, f (stripFlag e) = f e) (seen : List String)
    (l : List LedgerEntry) : (flagShort seen l).map f = l.map f := by
  have h := congrArg (List.map f) (flagShort_map_strip seen l)
  rw [List.map_map, List.map_map, show f ∘ stripFlag = f from funext hf] at h
  exact h

lemma flagShort_nil_flag_characterization (L : List LedgerEntry) (i : ℕ)
    (h : i < (flagShort [] L).length) (hL : i < L.length) :
    (((flagShort [] L).get ⟨i, h⟩).showShortPayment = true ↔
      (((flagShort [] L).get ⟨i, h⟩).category ≠ "Invoice" ∧
       ∃ iid, ((flagShort [] L).get ⟨i, h⟩).invoiceId = some iid ∧ iid ≠ "" ∧
         ∀ y ∈ (flagShort [] L).take i, y.invoiceId ≠ some iid)) := by
  have hx : (flagShort [] L).get? i = some ((flagShort [] L).get ⟨i, h⟩) :=
    List.get?_eq_get h
  have hiff := flagShort_flag_iff L [] i _ hx
  have hcat : ((flagShort [] L).get ⟨i, h⟩).category = (L.get ⟨i, hL⟩).category :=
    flagShort_get_field (fun e => e.category) (fun e => rfl) [] L i h hL
  have hinv : ((flagShort [] L).get ⟨i, h⟩).invoiceId =
      (L.get ⟨i, hL⟩).invoiceId :=
    flagShort_get_field (fun e => e.invoiceId) (fun e => rfl) [] L i h hL
  have hmapf := flagShort_map_field (fun e => e.invoiceId) (fun e => rfl) [] L
  have htake : ((flagShort [] L).take i).map (fun e => e.invoiceId) =
      (L.take i).map (fun e => e.invoiceId) := by
    rw [List.map_take, List.map_take, hmapf]
  rw [hiff, List.get?_eq_get hL]
  simp only [Option.some.injEq]
  constructor
  · rintro ⟨e, he, hcat2, iid, hinv2, hne, -, hP⟩
    subst he
    refine ⟨?_, iid, ?_, hne, ?_⟩
    · rw [hcat]; exact hcat2
    · rw [hinv]; exact hinv2
    · intro y hy
      have hm : y.invoiceId ∈ ((flagShort [] L).take i).map
          (fun e => e.invoiceId) := List.mem_map_of_mem _ hy
      rw [htake] at hm
      rcases List.mem_map.mp hm with ⟨z, hz, hmz⟩
      rw [← hmz]
      exact hP z hz
  · rintro ⟨hcat2, iid, hinv2, hne, hP⟩
    refine ⟨L.get ⟨i, hL⟩, rfl, ?_, iid, ?_, hne, by simp, ?_⟩
    · rw [← hcat]; exact hcat2
    · rw [← hinv]; exact hinv2
    · intro y hy
      have hm : y.invoiceId ∈ (L.take i).map (fun e => e.invoiceId) :=
        List.mem_map_of_mem _ hy
      rw [← htake] at hm
      rcases List.mem_map.mp hm with ⟨z, hz, hmz⟩
      rw [← hmz]
      exact hP z hz

/-- C9 (amended): in `ledgerData` output, a row carries the short-payment
display flag exactly when it has a *non-empty* `invoiceId` (the source
guards with JS-truthy `if (entry.invoiceId)`, so rows with an absent or
empty-string id are skipped and never flagged), it is the *first* such
row (in the returned newest-first order) of its invoice group, and it is
not the invoice row itself; consequently the flag appears at most once
per invoice and never on an invoice row — but when the invoice row
precedes its transactions in the reversed order (e.g. a payment dated
before the invoice), no row of the group is flagged at all. -/
theorem c9_amended_short_payment_flag (st : AppState) (cid q : String)
    (i : ℕ) (h : i < (ledgerData st cid q).length) :
    (((ledgerData st cid q).get ⟨i, h⟩).showShortPayment = true ↔
      (((ledgerData st cid q).get ⟨i, h⟩).category ≠ "Invoice" ∧
       ∃ iid, ((ledgerData st cid q).get ⟨i, h⟩).invoiceId = some iid ∧
         iid ≠ "" ∧
         ∀ y ∈ (ledgerData st cid q).take i, y.invoiceId ≠ some iid)) := by
  have hL : i < ((applySearch cid q (addBalances 0
      (sortLedger (allEntries st cid)))).reverse).length := by
    have hlen : (ledgerData st cid q).length =
        ((applySearch cid q (addBalances 0
          (sortLedger (allEntries st cid)))).reverse).length :=
      flagShort_length _ _
    rw [← hlen]
    exact h
  exact flagShort_nil_flag_characterization
    ((applySearch cid q (addBalances 0 (sortLedger (allEntries st cid)))).reverse)
    i h hL

/-- C9 (amended) witness: with equal dates the payment row is first in
the reversed order and carries the flag. -/
theorem c9_amended_short_payment_flag_witness :
    ∃ h : 0 < (ledgerData c9bState "all" "").length,
      (((ledgerData c9bState "all" "").get ⟨0, h⟩).showShortPayment = true ↔
        (((ledgerData c9bState "all" "").get ⟨0, h⟩).category ≠ "Invoice" ∧
         ∃ iid, ((ledgerData c9bState "all" "").get ⟨0, h⟩).invoiceId = some iid ∧
           iid ≠ "" ∧
           ∀ y ∈ (ledgerData c9bState "all" "").take 0,
             y.invoiceId ≠ some iid)) :=
  ⟨by decide, c9_amended_short_payment_flag c9bState "all" "" 0 (by decide)⟩

/-- C9 counterexample: a payment dated *before* its invoice. In the
newest-first output the invoice row comes first and consumes the
`seenInvoices` guard, so the payment row — the first row of the group
that is not the invoice row — is *not* flagged, refuting the claim that
the flag lands on exactly that row. -/
theorem c9_counterexample :
    (ledgerData c9State "all" "").map (fun e => e.category) =
      ["Invoice", "Partial payment - INV-1"] ∧
    (ledgerData c9State "all" "").map (fun e => e.invoiceId) =
      [some "I1", some "I1"] ∧
    (ledgerData c9State "all" "").map (fun e => e.showShortPayment) =
      [false, false] := by
  refine ⟨by decide, by decide, by decide⟩
